import Mathlib

/-!
Shallow embedding of the presence-marker client in `src/client/index.tsx`:
the `onMessage` handler of the Party socket (marker store + visitor counter)
and the `onRender` frame callback of the globe (marker snapshot + rotation
angle `phi`).  Latitudes, longitudes, marker sizes and the rotation angle
are JavaScript numbers on which the code performs only exact operations
(copying, equality tests, adding the literal 0.01), so they are embedded
as rationals; the visitor counter is embedded as an integer (the code only
adds and subtracts 1).
-/

/-- A marker stored in the `positions` map: a `location` pair
`[lat, lng]` and a display `size` (source lines 38-41). -/
structure Marker where
  location : Rat × Rat
  size : Rat
deriving DecidableEq, Repr

/-- The `position` record carried by an `add-marker` message:
`{ id, lat, lng }` (wire contract, spec section 6). -/
structure MarkerPosition where
  id : String
  lat : Rat
  lng : Rat
deriving DecidableEq, Repr

/-- The decoded incoming message, the tagged union `OutgoingMessage` of the
wire contract: either `{type: "add-marker", position}` or, for any other
type string, `{type, id}` interpreted as a removal.  The removal
constructor keeps its type tag; on well-formed wire messages that tag is
a string other than "add-marker". -/
inductive OutgoingMessage where
  | addMarker (position : MarkerPosition)
  | remove (ty : String) (id : String)
deriving DecidableEq, Repr

/-- The type tag of a decoded message (`message.type` in the source). -/
def OutgoingMessage.ty? : OutgoingMessage → String
  | .addMarker _ => "add-marker"
  | .remove t _ => t

/-- The id a message is about: `message.position.id` for an add,
`message.id` for a removal. -/
def OutgoingMessage.msgId : OutgoingMessage → String
  | .addMarker p => p.id
  | .remove _ id => id

/-- The marker store is a JavaScript `Map` from id strings to markers;
it is embedded as an association list in insertion order, which is how a
`Map` iterates its entries. -/
abbrev PositionsMap := List (String × Marker)

/-- `Map.get`-style lookup: the entry for key `k`, if present. -/
def mapGet? : PositionsMap → String → Option Marker
  | [], _ => none
  | e :: rest, k => if e.1 = k then some e.2 else mapGet? rest k

/-- `Map.set k v`: overwrite the entry for `k` in place if the key is
present (a JavaScript `Map` keeps the original insertion position),
otherwise append a new entry at the end. -/
def mapSet : PositionsMap → String → Marker → PositionsMap
  | [], k, v => [(k, v)]
  | e :: rest, k, v => if e.1 = k then (k, v) :: rest else e :: mapSet rest k v

/-- `Map.delete k`: drop the entry for `k`; a no-op (and no error) when
the key is absent. -/
def mapDelete : PositionsMap → String → PositionsMap
  | [], _ => []
  | e :: rest, k => if e.1 = k then mapDelete rest k else e :: mapDelete rest k

/-- The mutable client state touched by `onMessage`: the `positions` map
(source line 21) and the visitor `counter` (source line 16). -/
structure ClientState where
  positions : PositionsMap
  counter : Int
deriving DecidableEq, Repr

/-- At mount the map is `new Map()` and the counter is `useState(0)`. -/
def initialClientState : ClientState := ⟨[], 0⟩

/-- The socket `onMessage` handler (source lines 34-50): on an
`add-marker` message, set the marker for `message.position.id` with
location `[lat, lng]` and size 0.1 when the id equals the socket's own
id and 0.05 otherwise, then increment the counter; on any other message
(the `else` branch), delete the entry for `message.id` and decrement the
counter.  `selfId` is `socket.id`; the TypeScript `if` on
`message.type === "add-marker"` narrows the tagged union exactly as this
match does. -/
def onMessage (selfId : String) (st : ClientState) (m : OutgoingMessage) : ClientState :=
  match m with
  | .addMarker position =>
      { positions :=
          mapSet st.positions position.id
            ⟨(position.lat, position.lng), if position.id = selfId then 0.1 else 0.05⟩,
        counter := st.counter + 1 }
  | .remove _ id =>
      { positions := mapDelete st.positions id,
        counter := st.counter - 1 }

/-- Apply a sequence of incoming messages in arrival order. -/
def runMessages (selfId : String) (st : ClientState) (es : List OutgoingMessage) : ClientState :=
  es.foldl (onMessage selfId) st

/-- The snapshot the render callback hands to the globe:
`[...positions.current.values()]` (source line 78). -/
def snapshot (st : ClientState) : List Marker :=
  st.positions.map (fun e => e.2)

/-- What one frame passes to the renderer: the marker snapshot and the
rotation angle `state.phi` (source lines 78-81). -/
structure RenderFrame where
  markers : List Marker
  phi : Rat
deriving DecidableEq, Repr

/-- The `onRender` callback (source lines 73-83): publish the current
snapshot and the current angle, then advance the angle by 0.01. -/
def onRender (st : ClientState) (phi : Rat) : RenderFrame × Rat :=
  (⟨snapshot st, phi⟩, phi + 0.01)

/-- The whole mounted component: the client state plus the rotation
angle, which lives in the `useEffect` closure. -/
structure AppState where
  client : ClientState
  phi : Rat
deriving DecidableEq, Repr

/-- The two callback sources that fire after mount: a socket message or
an animation-frame tick.  They never run concurrently (single-threaded
event loop). -/
inductive AppEvent where
  | message (m : OutgoingMessage)
  | frame

/-- One event-loop callback: a message runs `onMessage` and touches only
the client state; a frame runs `onRender`, touches only `phi`, and emits
a `RenderFrame`. -/
def appStep (selfId : String) (st : AppState) : AppEvent → AppState × Option RenderFrame
  | .message m => ({ st with client := onMessage selfId st.client m }, none)
  | .frame =>
      let r := onRender st.client st.phi
      ({ st with phi := r.2 }, some r.1)

/-- Modelled from the spec: the location an id should currently map to
after a list of events, namely the location of its most recent add event
unless a later removal for that id intervened (spec section 8,
"each mapped to its most recently supplied location"). -/
def specMostRecentLocation (id : String) (cur : Option (Rat × Rat)) :
    OutgoingMessage → Option (Rat × Rat)
  | .addMarker p => if p.id = id then some (p.lat, p.lng) else cur
  | .remove _ rid => if rid = id then none else cur

/-- The `onMessage` handler as a step relation between client states,
used to state that the handler is deterministic. -/
inductive HandlerStep (selfId : String) : ClientState → OutgoingMessage → ClientState → Prop
  | add (st : ClientState) (p : MarkerPosition) :
      HandlerStep selfId st (.addMarker p)
        ⟨mapSet st.positions p.id
           ⟨(p.lat, p.lng), if p.id = selfId then 0.1 else 0.05⟩,
         st.counter + 1⟩
  | remove (st : ClientState) (t id : String) :
      HandlerStep selfId st (.remove t id)
        ⟨mapDelete st.positions id, st.counter - 1⟩

/-- A run of the handler over a sequence of incoming messages. -/
inductive HandlerRun (selfId : String) : ClientState → List OutgoingMessage → ClientState → Prop
  | nil (st : ClientState) : HandlerRun selfId st [] st
  | cons {st st₁ st₂ : ClientState} {m : OutgoingMessage} {ms : List OutgoingMessage} :
      HandlerStep selfId st m st₁ → HandlerRun selfId st₁ ms st₂ →
      HandlerRun selfId st (m :: ms) st₂

/- ## Lemmas about the map operations -/

theorem mapGet?_mapSet_self (m : PositionsMap) (k : String) (v : Marker) :
    mapGet? (mapSet m k v) k = some v := by
  induction m with
  | nil => simp [mapSet, mapGet?]
  | cons e rest ih =>
    by_cases h : e.1 = k
    · simp [mapSet, mapGet?, h]
    · simp [mapSet, mapGet?, h, ih]

theorem mapGet?_mapSet_other (m : PositionsMap) (k : String) (v : Marker)
    (k' : String) (h : k' ≠ k) :
    mapGet? (mapSet m k v) k' = mapGet? m k' := by
  have h1 : ¬ (k = k') := Ne.symm h
  induction m with
  | nil => simp [mapSet, mapGet?, h1]
  | cons e rest ih =>
    by_cases he : e.1 = k
    · have h2 : ¬ (e.1 = k') := fun hc => h1 (he.symm.trans hc)
      simp [mapSet, mapGet?, he, h1, h2]
    · by_cases he' : e.1 = k'
      · simp [mapSet, mapGet?, he, he', h, h1]
      · simp [mapSet, mapGet?, he, he', ih]

theorem mapGet?_mapDelete_self (m : PositionsMap) (k : String) :
    mapGet? (mapDelete m k) k = none := by
  induction m with
  | nil => simp [mapDelete, mapGet?]
  | cons e rest ih =>
    by_cases h : e.1 = k
    · simp [mapDelete, h, ih]
    · simp [mapDelete, mapGet?, h, ih]

theorem mapGet?_mapDelete_other (m : PositionsMap) (k k' : String) (h : k' ≠ k) :
    mapGet? (mapDelete m k) k' = mapGet? m k' := by
  have h1 : ¬ (k = k') := Ne.symm h
  induction m with
  | nil => simp [mapDelete]
  | cons e rest ih =>
    by_cases he : e.1 = k
    · have h2 : ¬ (e.1 = k') := fun hc => h1 (he.symm.trans hc)
      simp [mapDelete, mapGet?, he, h2, h1, ih]
    · by_cases he' : e.1 = k'
      · simp [mapDelete, mapGet?, he, he', h, h1]
      · simp [mapDelete, mapGet?, he, he', ih]

theorem mapDelete_of_absent (m : PositionsMap) (k : String)
    (h : mapGet? m k = none) : mapDelete m k = m := by
  induction m with
  | nil => simp [mapDelete]
  | cons e rest ih =>
    by_cases he : e.1 = k
    · simp [mapGet?, he] at h
    · simp [mapGet?, he] at h
      simp [mapDelete, he, ih h]

/- ## Lemmas about the handler -/

theorem runMessages_nil (selfId : String) (st : ClientState) :
    runMessages selfId st [] = st := rfl

theorem runMessages_cons (selfId : String) (st : ClientState)
    (m : OutgoingMessage) (ms : List OutgoingMessage) :
    runMessages selfId st (m :: ms) = runMessages selfId (onMessage selfId st m) ms := rfl

theorem lookup_onMessage (selfId : String) (st : ClientState)
    (m : OutgoingMessage) (id : String) :
    (mapGet? (onMessage selfId st m).positions id).map Marker.location
      = specMostRecentLocation id ((mapGet? st.positions id).map Marker.location) m := by
  cases m with
  | addMarker p =>
    by_cases h : p.id = id
    · subst h
      simp [onMessage, specMostRecentLocation, mapGet?_mapSet_self]
    · simp [onMessage, specMostRecentLocation, h,
        mapGet?_mapSet_other st.positions p.id _ id (fun hc => h hc.symm)]
  | remove t rid =>
    by_cases h : rid = id
    · subst h
      simp [onMessage, specMostRecentLocation, mapGet?_mapDelete_self]
    · simp [onMessage, specMostRecentLocation, h,
        mapGet?_mapDelete_other st.positions rid id (fun hc => h hc.symm)]

theorem lookup_runMessages (selfId : String) (es : List OutgoingMessage)
    (st : ClientState) (id : String) :
    (mapGet? (runMessages selfId st es).positions id).map Marker.location
      = es.foldl (specMostRecentLocation id)
          ((mapGet? st.positions id).map Marker.location) := by
  induction es generalizing st with
  | nil => rfl
  | cons m ms ih =>
    rw [runMessages_cons, ih, List.foldl_cons, lookup_onMessage]

theorem handlerStep_eq (selfId : String) {st st' : ClientState} {m : OutgoingMessage}
    (h : HandlerStep selfId st m st') : st' = onMessage selfId st m := by
  cases h <;> rfl

theorem handlerRun_eq (selfId : String) {st st' : ClientState}
    {ms : List OutgoingMessage} (h : HandlerRun selfId st ms st') :
    st' = runMessages selfId st ms := by
  induction h with
  | nil => rfl
  | cons hs _ ih =>
    rw [handlerStep_eq selfId hs] at ih
    exact ih

/- ## The claims -/

/-- C1: the spec's invariant "the store's cardinality equals the displayed
visitor counter after each event" is the code's own intent (the counter is
documented as "the number of markers we're currently displaying"), but the
code increments the counter on every add event without deduplicating;
after adding the same id twice from the empty state the store holds one
marker while the counter reads 2. -/
theorem counter_drifts_from_cardinality :
    ((runMessages "self" initialClientState
        [OutgoingMessage.addMarker ⟨"a", 1, 2⟩,
         OutgoingMessage.addMarker ⟨"a", 3, 4⟩]).positions.length : Int) = 1
    ∧ (runMessages "self" initialClientState
        [OutgoingMessage.addMarker ⟨"a", 1, 2⟩,
         OutgoingMessage.addMarker ⟨"a", 3, 4⟩]).counter = 2
    ∧ ((runMessages "self" initialClientState
        [OutgoingMessage.addMarker ⟨"a", 1, 2⟩,
         OutgoingMessage.addMarker ⟨"a", 3, 4⟩]).positions.length : Int)
      ≠ (runMessages "self" initialClientState
        [OutgoingMessage.addMarker ⟨"a", 1, 2⟩,
         OutgoingMessage.addMarker ⟨"a", 3, 4⟩]).counter := by
  refine ⟨by decide, by decide, by decide⟩

/-- C2: an add-marker event stores, under the carried id, a marker whose
size is 0.1 when that id equals the socket's own id and 0.05 otherwise,
with the carried latitude and longitude as its location. -/
theorem addMarker_size_self_or_peer (selfId : String) (st : ClientState)
    (p : MarkerPosition) :
    mapGet? (onMessage selfId st (.addMarker p)).positions p.id
      = some ⟨(p.lat, p.lng), if p.id = selfId then 0.1 else 0.05⟩ := by
  simp [onMessage, mapGet?_mapSet_self]

/-- C3: after any interleaved sequence of add and remove events applied
from the empty store, an id is present exactly when its last add was not
followed by a removal of that id, and it maps to the location of its most
recent add event; the frame snapshot is exactly the stored marker values. -/
theorem store_tracks_most_recent_adds (selfId : String)
    (es : List OutgoingMessage) (id : String) :
    (mapGet? (runMessages selfId initialClientState es).positions id).map Marker.location
      = es.foldl (specMostRecentLocation id) none
    ∧ snapshot (runMessages selfId initialClientState es)
      = (runMessages selfId initialClientState es).positions.map (fun e => e.2) :=
  ⟨lookup_runMessages selfId es initialClientState id, rfl⟩

/-- C4: every add-marker event adds exactly 1 to the counter whether or
not the id was already present, and every removal event subtracts exactly
1 whether or not the id was present: the counter update never looks at
the store. -/
theorem counter_updates_unconditional (selfId : String) (st : ClientState)
    (p : MarkerPosition) (t id : String) :
    (onMessage selfId st (.addMarker p)).counter = st.counter + 1
    ∧ (onMessage selfId st (.remove t id)).counter = st.counter - 1 :=
  ⟨rfl, rfl⟩

/-- C5: a removal event for an id absent from the store is harmless: the
handler is total (the embedded `Map.delete` never fails) and leaves the
store unchanged, and the store's cardinality is never negative after any
event sequence. -/
theorem remove_absent_id_safe (selfId : String) (st : ClientState)
    (t id : String) (es : List OutgoingMessage)
    (h : mapGet? st.positions id = none) :
    (onMessage selfId st (.remove t id)).positions = st.positions
    ∧ (0 : Int) ≤ ((runMessages selfId initialClientState es).positions.length : Int) := by
  refine ⟨?_, Int.natCast_nonneg _⟩
  simp [onMessage, mapDelete_of_absent st.positions id h]

/-- C5 witness: removing the never-added id "x" from the freshly mounted
state leaves its (empty) store unchanged. -/
theorem remove_absent_id_safe_witness :
    (onMessage "self" initialClientState (OutgoingMessage.remove "remove" "x")).positions
      = initialClientState.positions
    ∧ (0 : Int) ≤ ((runMessages "self" initialClientState []).positions.length : Int) :=
  remove_absent_id_safe "self" initialClientState "remove" "x" [] rfl

/-- C6: end-to-end scenario from the empty store: after
add-marker id "abc" lat 10 lng 20 the snapshot is one marker at [10, 20]
of size 0.05 or 0.1 and the counter reads 1; after a subsequent removal
of "abc" the snapshot is empty and the counter reads 0. -/
theorem end_to_end_scenario (selfId : String) :
    (snapshot (onMessage selfId initialClientState (.addMarker ⟨"abc", 10, 20⟩))
        = [⟨(10, 20), 0.05⟩]
      ∨ snapshot (onMessage selfId initialClientState (.addMarker ⟨"abc", 10, 20⟩))
        = [⟨(10, 20), 0.1⟩])
    ∧ (onMessage selfId initialClientState (.addMarker ⟨"abc", 10, 20⟩)).counter = 1
    ∧ snapshot (onMessage selfId
        (onMessage selfId initialClientState (.addMarker ⟨"abc", 10, 20⟩))
        (.remove "remove" "abc")) = []
    ∧ (onMessage selfId
        (onMessage selfId initialClientState (.addMarker ⟨"abc", 10, 20⟩))
        (.remove "remove" "abc")).counter = 0 := by
  by_cases h : "abc" = selfId
  · exact ⟨Or.inr (by simp [snapshot, onMessage, initialClientState, mapSet, h]),
      rfl,
      by simp [snapshot, onMessage, initialClientState, mapSet, mapDelete],
      rfl⟩
  · exact ⟨Or.inl (by simp [snapshot, onMessage, initialClientState, mapSet, h]),
      rfl,
      by simp [snapshot, onMessage, initialClientState, mapSet, mapDelete],
      rfl⟩

/-- C7: a decoded message whose type tag is any string other than
"add-marker" takes the handler's else branch: the entry for the carried
id is deleted from the store (and the counter is decremented). -/
theorem non_add_tag_is_removal (selfId : String) (st : ClientState)
    (tag id : String) (h : tag ≠ "add-marker") :
    OutgoingMessage.ty? (.remove tag id) = tag
    ∧ (onMessage selfId st (.remove tag id)).positions = mapDelete st.positions id
    ∧ (onMessage selfId st (.remove tag id)).counter = st.counter - 1 :=
  ⟨rfl, rfl, rfl⟩

/-- C7 witness: the tag "remove" differs from "add-marker" and its message
deletes the carried id from the store. -/
theorem non_add_tag_is_removal_witness :
    OutgoingMessage.ty? (.remove "remove" "x") = "remove"
    ∧ (onMessage "self" initialClientState (OutgoingMessage.remove "remove" "x")).positions
      = mapDelete initialClientState.positions "x"
    ∧ (onMessage "self" initialClientState (OutgoingMessage.remove "remove" "x")).counter
      = initialClientState.counter - 1 :=
  non_add_tag_is_removal "self" initialClientState "remove" "x" (by decide)

/-- C8: each frame callback passes the current angle to the renderer and
advances it by the fixed increment 0.01, so the angle passed at the next
frame is strictly greater; a message event neither changes the angle nor
emits a frame, so only the render loop touches the rotation state. -/
theorem rotation_strictly_increases (selfId : String) (st : AppState)
    (m : OutgoingMessage) :
    (appStep selfId st .frame).2 = some ⟨snapshot st.client, st.phi⟩
    ∧ ((appStep selfId st .frame).1).phi = st.phi + 0.01
    ∧ st.phi < ((appStep selfId st .frame).1).phi
    ∧ (appStep selfId ((appStep selfId st .frame).1) .frame).2
        = some ⟨snapshot ((appStep selfId st .frame).1).client, st.phi + 0.01⟩
    ∧ ((appStep selfId st (.message m)).1).phi = st.phi
    ∧ (appStep selfId st (.message m)).2 = none := by
  refine ⟨rfl, rfl, ?_, rfl, rfl, rfl⟩
  show st.phi < st.phi + 0.01
  exact lt_add_of_pos_right st.phi (by norm_num)

/-- C9: a single event carrying id X changes no store entry whose key
differs from X: lookup of any other key returns the same entry
(membership, location and size alike) before and after. -/
theorem other_ids_untouched (selfId : String) (st : ClientState)
    (m : OutgoingMessage) (k : String) (h : k ≠ m.msgId) :
    mapGet? (onMessage selfId st m).positions k = mapGet? st.positions k := by
  cases m with
  | addMarker p =>
    simpa [onMessage] using mapGet?_mapSet_other st.positions p.id _ k h
  | remove t id =>
    simpa [onMessage] using mapGet?_mapDelete_other st.positions id k h

/-- C9 witness: a removal of "a" leaves the entry for "b" unchanged. -/
theorem other_ids_untouched_witness :
    mapGet? (onMessage "self" initialClientState
        (OutgoingMessage.remove "remove" "a")).positions "b"
      = mapGet? initialClientState.positions "b" :=
  other_ids_untouched "self" initialClientState
    (OutgoingMessage.remove "remove" "a") "b" (by decide)

/-- C10: the message handler is deterministic: for a fixed socket id and
a fixed sequence of well-formed incoming messages, any two runs of the
step relation from the freshly mounted state end in the same state, with
identical marker stores and identical counters. -/
theorem handler_deterministic (selfId : String) (es : List OutgoingMessage)
    (s₁ s₂ : ClientState)
    (h₁ : HandlerRun selfId initialClientState es s₁)
    (h₂ : HandlerRun selfId initialClientState es s₂) :
    s₁ = s₂ ∧ s₁.positions = s₂.positions ∧ s₁.counter = s₂.counter := by
  have e₁ := handlerRun_eq selfId h₁
  have e₂ := handlerRun_eq selfId h₂
  rw [e₁, e₂]
  exact ⟨rfl, rfl, rfl⟩

/-- C10 witness: two identical one-removal runs from the mounted state
reach the same state. -/
theorem handler_deterministic_witness :
    (⟨mapDelete initialClientState.positions "x", initialClientState.counter - 1⟩ : ClientState)
      = ⟨mapDelete initialClientState.positions "x", initialClientState.counter - 1⟩ :=
  (handler_deterministic "self" [OutgoingMessage.remove "remove" "x"] _ _
    (HandlerRun.cons (HandlerStep.remove initialClientState "remove" "x") (HandlerRun.nil _))
    (HandlerRun.cons (HandlerStep.remove initialClientState "remove" "x") (HandlerRun.nil _))).1
